import Mathlib

/-!
Verification development for the static-analysis core of the
`ai-code-debugger` repository: a shallow embedding of
`lib/dependency-analyzer` and `lib/code-quality-analyzer` together with
proofs and refutations of the specified properties.

The analyzers work by JavaScript regular-expression scanning, so the
embedding contains a small backtracking regular-expression engine whose
constructs mirror the JavaScript semantics used by the source: greedy and
lazy repetition, ordered alternation, optional groups, capturing groups,
the `^` (multiline and non-multiline) and `$` anchors and the `\b` word
boundary.  Matching is fuel-bounded; the fuel supplied is an upper bound
on the recursion depth, so it never runs out.
-/

/-- ASCII whitespace, the subset of the JavaScript `\s` class exercised by
the analyzed inputs. -/
def isWsC (c : Char) : Bool :=
  c == ' ' || c == '\t' || c == '\n' || c == '\r' || c == '\x0b' || c == '\x0c'

/-- The JavaScript `\w` class: ASCII letters, digits and underscore. -/
def isWordCh (c : Char) : Bool :=
  c.isAlpha || c.isDigit || c == '_'

/-- First character of a JavaScript identifier: `[a-zA-Z_$]`. -/
def isIdentStart (c : Char) : Bool :=
  c.isAlpha || c == '_' || c == '$'

/-- Continuation character of a JavaScript identifier: `[a-zA-Z0-9_$]`. -/
def isIdentCont (c : Char) : Bool :=
  isIdentStart c || c.isDigit

/-- Regular expressions, mirroring the JavaScript constructs used by the
analyzers.  `star` is greedy, `starL` is lazy (`*?`), `bos` is `^` without
the `m` flag, `bol` is `^` with the `m` flag, `eos` is `$` without the `m`
flag and `wb` is `\b`. -/
inductive RE where
  | eps
  | cls (p : Char → Bool)
  | lit (cs : List Char)
  | seq (a b : RE)
  | alt (a b : RE)
  | star (a : RE)
  | starL (a : RE)
  | group (idx : Nat) (a : RE)
  | bos
  | bol
  | eos
  | wb

/-- Structural size of a regular expression, used to bound recursion depth. -/
def reSize : RE → Nat
  | .eps => 1
  | .cls _ => 1
  | .lit _ => 1
  | .seq a b => reSize a + reSize b + 1
  | .alt a b => reSize a + reSize b + 1
  | .star a => reSize a + 1
  | .starL a => reSize a + 1
  | .group _ a => reSize a + 1
  | .bos => 1
  | .bol => 1
  | .eos => 1
  | .wb => 1

/-- Captured groups of one match: association list from group index to the
captured characters; entries added later in the match shadow earlier ones. -/
abbrev Caps := List (Nat × List Char)

/-- One way a regular expression can match a prefix of the input: the
captures, the last character consumed so far (context for `\b`, `^`) and
the remaining input. -/
abbrev MRes := List (Caps × Option Char × List Char)

/-- Whether an optional character is a word character (`none` counts as
non-word, as at the edges of the input). -/
def wordOpt : Option Char → Bool
  | none => false
  | some c => isWordCh c

/-- Consume a literal character sequence from the input. -/
def matchLit : List Char → Option Char → List Char → MRes
  | [], prev, s => [([], prev, s)]
  | c :: cs, _, s =>
    match s with
    | [] => []
    | d :: ds => if d = c then matchLit cs (some d) ds else []

/-- Backtracking matcher.  Returns every way `r` can match a prefix of
`s`, in the priority order a JavaScript engine explores them; repetition
bodies are required to consume input (matching the engine's empty-iteration
cutoff).  `prev` is the character immediately before the current position,
`none` at the start of the input. -/
def mrun : Nat → RE → Option Char → List Char → MRes
  | 0, _, _, _ => []
  | fuel + 1, r, prev, s =>
    match r with
    | .eps => [([], prev, s)]
    | .cls p =>
      match s with
      | [] => []
      | c :: cs => if p c then [([], some c, cs)] else []
    | .lit l => matchLit l prev s
    | .seq a b =>
      (mrun fuel a prev s).flatMap fun x =>
        (mrun fuel b x.2.1 x.2.2).map fun y => (y.1 ++ x.1, y.2.1, y.2.2)
    | .alt a b => mrun fuel a prev s ++ mrun fuel b prev s
    | .star a =>
      ((mrun fuel a prev s).flatMap fun x =>
        if x.2.2.length < s.length then
          (mrun fuel (.star a) x.2.1 x.2.2).map fun y => (y.1 ++ x.1, y.2.1, y.2.2)
        else []) ++ [([], prev, s)]
    | .starL a =>
      ([], prev, s) ::
      ((mrun fuel a prev s).flatMap fun x =>
        if x.2.2.length < s.length then
          (mrun fuel (.starL a) x.2.1 x.2.2).map fun y => (y.1 ++ x.1, y.2.1, y.2.2)
        else [])
    | .group i a =>
      (mrun fuel a prev s).map fun x =>
        ((i, s.take (s.length - x.2.2.length)) :: x.1, x.2.1, x.2.2)
    | .bos => if prev.isNone then [([], prev, s)] else []
    | .bol =>
      match prev with
      | none => [([], prev, s)]
      | some c => if c = '\n' then [([], prev, s)] else []
    | .eos => if s.isEmpty then [([], prev, s)] else []
    | .wb => if wordOpt prev != wordOpt s.head? then [([], prev, s)] else []

/-- Run `r` at the current position with fuel that bounds the recursion
depth of `mrun` (each call either shrinks the expression or consumes
input), so matching is never cut short. -/
def runRE (r : RE) (prev : Option Char) (s : List Char) : MRes :=
  mrun ((s.length + 1) * (reSize r + 1) + 1) r prev s

/-- Global scan, as the JavaScript `exec` loop with the `g` flag: find the
leftmost match, record its captures, resume after it (all the analyzers'
global patterns consume at least one character on any match). -/
def scanAll : Nat → RE → Option Char → List Char → List Caps
  | 0, _, _, _ => []
  | fuel + 1, r, prev, s =>
    match (runRE r prev s).head? with
    | some x =>
      if x.2.2.length < s.length then x.1 :: scanAll fuel r x.2.1 x.2.2
      else [x.1]
    | none =>
      match s with
      | [] => []
      | c :: cs => scanAll fuel r (some c) cs

/-- All matches of `r` in `s`, leftmost first, as capture lists. -/
def reMatches (r : RE) (s : String) : List Caps :=
  scanAll (s.data.length + 1) r none s.data

/-- Whether `r` matches anywhere in `s` (JavaScript `RegExp.test`). -/
def reTestStr (r : RE) (s : String) : Bool :=
  !(reMatches r s).isEmpty

/-- First match of `r` in `s` (JavaScript `String.match` without `g`). -/
def reFirst (r : RE) (s : String) : Option Caps :=
  (reMatches r s).head?

/-- Look up capture group `i` of one match. -/
def capGet (caps : Caps) (i : Nat) : Option String :=
  (caps.find? fun x => x.1 == i).map fun x => String.mk x.2

/-- Group-1 captures of every match in which group 1 participated. -/
def reCaps1 (r : RE) (s : String) : List String :=
  (reMatches r s).filterMap fun g => capGet g 1

/-- Number of matches of `r` in `s` (length of `String.match` with `g`). -/
def reCount (r : RE) (s : String) : Nat :=
  (reMatches r s).length

/-- Replace every match of `r` in `s` by `repl` (JavaScript
`String.replace` with the `g` flag). -/
def repAll : Nat → RE → List Char → Option Char → List Char → List Char
  | 0, _, _, _, s => s
  | fuel + 1, r, repl, prev, s =>
    match (runRE r prev s).head? with
    | some x =>
      if x.2.2.length < s.length then repl ++ repAll fuel r repl x.2.1 x.2.2
      else
        match s with
        | [] => repl
        | c :: cs => repl ++ c :: repAll fuel r repl (some c) cs
    | none =>
      match s with
      | [] => []
      | c :: cs => c :: repAll fuel r repl (some c) cs

/-- Replace the first match of `r` in `s` by `repl` (JavaScript
`String.replace` without `g`). -/
def repFirst : Nat → RE → List Char → Option Char → List Char → List Char
  | 0, _, _, _, s => s
  | fuel + 1, r, repl, prev, s =>
    match (runRE r prev s).head? with
    | some x => repl ++ x.2.2
    | none =>
      match s with
      | [] => []
      | c :: cs => c :: repFirst fuel r repl (some c) cs

/-- String wrapper for `repAll`. -/
def replaceAllStr (r : RE) (repl s : String) : String :=
  ⟨repAll (s.data.length + 1) r repl.data none s.data⟩

/-- String wrapper for `repFirst`. -/
def replaceFirstStr (r : RE) (repl s : String) : String :=
  ⟨repFirst (s.data.length + 1) r repl.data none s.data⟩

/-- Literal regular expression from a string. -/
def rlit (s : String) : RE := RE.lit s.data

/-- `\s+`. -/
def rws1 : RE := RE.seq (RE.cls isWsC) (RE.star (RE.cls isWsC))

/-- `\s*`. -/
def rws0 : RE := RE.star (RE.cls isWsC)

/-- `r+` as `r r*`, preserving greedy backtracking order. -/
def rplus (r : RE) : RE := RE.seq r (RE.star r)

/-- `r?`, greedy. -/
def ropt (r : RE) : RE := RE.alt r RE.eps

/-- Sequence of a list of expressions. -/
def rseq (l : List RE) : RE := l.foldr RE.seq RE.eps

/-- A never-matching expression, the unit of `ralts`. -/
def rfail : RE := RE.cls fun _ => false

/-- Ordered alternation over a list, first alternative preferred. -/
def ralts (l : List RE) : RE := l.foldr RE.alt rfail

/-! ## Kernel-friendly string primitives

The JavaScript string operations used by the analyzers (`split`, `join`,
`startsWith`, `slice`), implemented by structural recursion over the
character list so that concrete runs reduce inside the kernel. -/

/-- Splitting loop of `jsSplit`; the fuel is the input length plus one,
enough because the separator is never empty. -/
def splitLoop (sep : List Char) : Nat → List Char → List Char → List (List Char)
  | 0, s, cur => [cur.reverse ++ s]
  | fuel + 1, s, cur =>
    match s with
    | [] => [cur.reverse]
    | c :: cs =>
      if sep.isPrefixOf (c :: cs) then
        cur.reverse :: splitLoop sep fuel ((c :: cs).drop sep.length) []
      else splitLoop sep fuel cs (c :: cur)

/-- JavaScript `String.split` with a non-empty string separator. -/
def jsSplit (s sep : String) : List String :=
  (splitLoop sep.data (s.data.length + 1) s.data []).map String.mk

/-- JavaScript `Array.join` / `String.intercalate`. -/
def joinSep (sep : String) : List String → String
  | [] => ""
  | x :: xs => xs.foldl (fun acc y => acc ++ sep ++ y) x

/-- JavaScript `String.slice(n)`. -/
def strDrop (s : String) (n : Nat) : String := String.mk (s.data.drop n)

/-- JavaScript `String.startsWith`. -/
def strStartsWith (s pfx : String) : Bool := pfx.data.isPrefixOf s.data

/-! ## Embedding of `lib/dependency-analyzer` -/

/-- An input source file, as taken by `analyzeDependencies`. -/
structure SFile where
  path : String
  content : String
deriving DecidableEq, Repr

/-- `DependencyNode` of the source. -/
structure DependencyNode where
  path : String
  imports : List String
  exports : List String
  dependencies : List String
  dependents : List String
deriving DecidableEq, Repr

/-- One entry of the graph's `missingDependencies` list. -/
structure MissingDep where
  file : String
  missing : String
deriving DecidableEq, Repr

/-- `DependencyGraph` of the source; the `Map` is kept as an association
list in insertion order. -/
structure DependencyGraph where
  nodes : List DependencyNode
  circularDependencies : List (List String)
  missingDependencies : List MissingDep
  unusedFiles : List String
deriving DecidableEq, Repr

/-- `[\w*\s{},]`, the class inside the ES6 import pattern. -/
def es6ClsCh (c : Char) : Bool :=
  isWordCh c || c == '*' || isWsC c || c == '{' || c == '}' || c == ','

/-- `['"]`. -/
def quoteCh (c : Char) : Bool := c == '\'' || c == '"'

/-- `[^'"]`. -/
def nonQuoteCh (c : Char) : Bool := !(c == '\'' || c == '"')

/-- `[\w.]`. -/
def wordDotCh (c : Char) : Bool := isWordCh c || c == '.'

/-- `[\w\\]`. -/
def wordBsCh (c : Char) : Bool := isWordCh c || c == '\\'

/-- `.` (any character but newline). -/
def anyNoNl (c : Char) : Bool := !(c == '\n')

/-- `/import\s+(?:[\w*\s{},]*\s+from\s+)?['"]([^'"]+)['"]/g`. -/
def es6ImportRegex : RE :=
  rseq [rlit "import", rws1,
    ropt (rseq [RE.star (RE.cls es6ClsCh), rws1, rlit "from", rws1]),
    RE.cls quoteCh, RE.group 1 (rplus (RE.cls nonQuoteCh)), RE.cls quoteCh]

/-- `/import\s*$$\s*['"]([^'"]+)['"]\s*$$/g`, exactly as written in the
source: the two `$` characters are end-of-input anchors. -/
def dynamicImportRegex : RE :=
  rseq [rlit "import", rws0, RE.eos, RE.eos, rws0,
    RE.cls quoteCh, RE.group 1 (rplus (RE.cls nonQuoteCh)), RE.cls quoteCh,
    rws0, RE.eos, RE.eos]

/-- `/require\s*$$\s*['"]([^'"]+)['"]\s*$$/g`, exactly as written in the
source. -/
def requireRegex : RE :=
  rseq [rlit "require", rws0, RE.eos, RE.eos, rws0,
    RE.cls quoteCh, RE.group 1 (rplus (RE.cls nonQuoteCh)), RE.cls quoteCh,
    rws0, RE.eos, RE.eos]

/-- `/^(?:from\s+([\w.]+)\s+)?import\s+/gm`. -/
def pythonImportRegex : RE :=
  rseq [RE.bol, ropt (rseq [rlit "from", rws1,
    RE.group 1 (rplus (RE.cls wordDotCh)), rws1]), rlit "import", rws1]

/-- `/^import\s+([\w.]+);/gm`. -/
def javaImportRegex : RE :=
  rseq [RE.bol, rlit "import", rws1, RE.group 1 (rplus (RE.cls wordDotCh)), rlit ";"]

/-- `/^use\s+([\w\\]+)/gm`. -/
def phpUseRegex : RE :=
  rseq [RE.bol, rlit "use", rws1, RE.group 1 (rplus (RE.cls wordBsCh))]

/-- `/require(?:_once)?\s*$$\s*['"]([^'"]+)['"]\s*$$/g`, exactly as
written in the source. -/
def phpRequireRegex : RE :=
  rseq [rlit "require", ropt (rlit "_once"), rws0, RE.eos, RE.eos, rws0,
    RE.cls quoteCh, RE.group 1 (rplus (RE.cls nonQuoteCh)), RE.cls quoteCh,
    rws0, RE.eos, RE.eos]

/-- `[...new Set(xs)]`: deduplicate keeping the first occurrence. -/
def dedupAux : List String → List String → List String
  | _, [] => []
  | seen, x :: xs =>
    if x ∈ seen then dedupAux seen xs else x :: dedupAux (x :: seen) xs

/-- Deduplicate a list of strings keeping first occurrences. -/
def dedupeKeepFirst (l : List String) : List String := dedupAux [] l

/-- `extractImports` of `lib/dependency-analyzer`: run the seven import
patterns in source order and deduplicate.  The Python pattern pushes only
when its group 1 participated (`if (match[1])`). -/
def extractImports (content : String) : List String :=
  dedupeKeepFirst
    (reCaps1 es6ImportRegex content ++
     reCaps1 dynamicImportRegex content ++
     reCaps1 requireRegex content ++
     reCaps1 pythonImportRegex content ++
     reCaps1 javaImportRegex content ++
     reCaps1 phpUseRegex content ++
     reCaps1 phpRequireRegex content)

/-- `/export\s+(?:const|let|var|function|class|interface|type|enum)\s+(\w+)/g`. -/
def namedExportRegex : RE :=
  rseq [rlit "export", rws1,
    ralts [rlit "const", rlit "let", rlit "var", rlit "function",
      rlit "class", rlit "interface", rlit "type", rlit "enum"],
    rws1, RE.group 1 (rplus (RE.cls isWordCh))]

/-- `/export\s+default/`. -/
def exportDefaultRegex : RE := rseq [rlit "export", rws1, rlit "default"]

/-- `/export\s+.*\s+from\s+['"]([^'"]+)['"]/g`. -/
def reExportRegex : RE :=
  rseq [rlit "export", rws1, RE.star (RE.cls anyNoNl), rws1, rlit "from", rws1,
    RE.cls quoteCh, RE.group 1 (rplus (RE.cls nonQuoteCh)), RE.cls quoteCh]

/-- `extractExports` of `lib/dependency-analyzer`. -/
def extractExports (content : String) : List String :=
  reCaps1 namedExportRegex content ++
  (if reTestStr exportDefaultRegex content then ["default"] else []) ++
  (reCaps1 reExportRegex content).map (fun s => "re-export:" ++ s)

/-- `isExternalDependency`: external iff the specifier starts with neither
`.` nor `/`. -/
def isExternalDependency (importPath : String) : Bool :=
  !(strStartsWith importPath ".") && !(strStartsWith importPath "/")

/-- `resolveImportPaths`: resolve each relative specifier against the
importing file's directory and keep the first candidate path present in
the file set; unresolved and external specifiers contribute nothing. -/
def resolveImportPaths (imports : List String) (currentFile : String)
    (allFiles : List SFile) : List String :=
  imports.foldl (fun resolved imp =>
    if isExternalDependency imp then resolved
    else if strStartsWith imp "." then
      let currentDir := joinSep "/" (jsSplit currentFile "/").dropLast
      let resolvedPath0 :=
        if strStartsWith imp "./" then currentDir ++ "/" ++ strDrop imp 2 else imp
      let parts := jsSplit resolvedPath0 "/"
      let normalized := parts.foldl (fun acc part =>
        if part = ".." then acc.dropLast
        else if part ≠ "." then acc ++ [part] else acc) []
      let resolvedPath := joinSep "/" normalized
      let possiblePaths :=
        [resolvedPath, resolvedPath ++ ".js", resolvedPath ++ ".jsx",
         resolvedPath ++ ".ts", resolvedPath ++ ".tsx", resolvedPath ++ ".py",
         resolvedPath ++ ".java", resolvedPath ++ ".php",
         resolvedPath ++ "/index.js", resolvedPath ++ "/index.ts",
         resolvedPath ++ "/index.tsx", resolvedPath ++ "/index.py",
         resolvedPath ++ "/__init__.py"]
      match possiblePaths.find? (fun p => allFiles.any fun f => f.path = p) with
      | some p => resolved ++ [p]
      | none => resolved
    else resolved) []

/-- The source's entry-point patterns. -/
def entryPatterns : List RE :=
  [rseq [RE.bos, rlit "index."],
   rseq [RE.bos, rlit "main."],
   rseq [RE.bos, rlit "app."],
   rseq [RE.bos, rlit "src/index."],
   rseq [RE.bos, rlit "src/main."],
   rseq [rlit "page.", ralts [rseq [rlit "ts", ropt (rlit "x")],
     rseq [rlit "js", ropt (rlit "x")]], RE.eos],
   rseq [rlit "layout.", ralts [rseq [rlit "ts", ropt (rlit "x")],
     rseq [rlit "js", ropt (rlit "x")]], RE.eos]]

/-- `isEntryPoint`. -/
def isEntryPoint (path : String) : Bool :=
  entryPatterns.any fun r => reTestStr r path

/-- The node built for one file in the first pass of
`analyzeDependencies`. -/
def mkNode (files : List SFile) (f : SFile) : DependencyNode :=
  let imports := extractImports f.content
  { path := f.path
    imports := imports
    exports := extractExports f.content
    dependencies := resolveImportPaths imports f.path files
    dependents := [] }

/-- `Map.set` semantics over the association list: replace the node with
the same key in place, otherwise append. -/
def setNode : List DependencyNode → DependencyNode → List DependencyNode
  | [], n => [n]
  | m :: ms, n => if m.path = n.path then n :: ms else m :: setNode ms n

/-- First pass of `analyzeDependencies`: one node per file. -/
def buildNodes (files : List SFile) : List DependencyNode :=
  files.foldl (fun acc f => setNode acc (mkNode files f)) []

/-- `nodes.get(dep).dependents.push(path)`: append `p` to the dependents
of the node keyed `d`. -/
def pushDependent (d p : String) (ns : List DependencyNode) : List DependencyNode :=
  ns.map fun m =>
    if m.path = d then { m with dependents := m.dependents ++ [p] } else m

/-- Second pass of `analyzeDependencies`: for every node, for every
dependency it declares, append its path to that dependency's dependents.
The pass reads only paths and dependency lists, which it never mutates, so
it is folded over a snapshot of those pairs. -/
def addDependents (ns : List DependencyNode) : List DependencyNode :=
  (ns.map fun n => (n.path, n.dependencies)).foldl
    (fun acc pd => pd.2.foldl (fun a d => pushDependent d pd.1 a) acc) ns

/-- State of the source's cycle-detection depth-first search. -/
structure DfsState where
  circular : List (List String)
  visited : List String
  recStack : List String
deriving DecidableEq, Repr

/-- `cycle.join("->")`. -/
def joinArrow (cycle : List String) : String :=
  joinSep "->" cycle

/-- First index of an element in a list, as JavaScript `indexOf`. -/
def idxOf : List String → String → Option Nat
  | [], _ => none
  | x :: xs, y =>
    if x = y then some 0 else (idxOf xs y).map (· + 1)

/-- The `dfs` closure of `detectCircularDependencies`. -/
def dfs (nodes : List DependencyNode) : Nat → String → List String → DfsState → DfsState
  | 0, _, _, st => st
  | fuel + 1, path, currentPath, st =>
    let st := { st with visited := st.visited ++ [path],
                         recStack := st.recStack ++ [path] }
    let currentPath := currentPath ++ [path]
    let st :=
      match nodes.find? (fun n => n.path = path) with
      | none => st
      | some node =>
        node.dependencies.foldl (fun s dep =>
          if dep ∈ s.visited then
            if dep ∈ s.recStack then
              match idxOf currentPath dep with
              | none => s
              | some cycleStart =>
                let cycle := currentPath.drop cycleStart ++ [dep]
                let cycleStr := joinArrow cycle
                if s.circular.any (fun c => joinArrow c = cycleStr) then s
                else { s with circular := s.circular ++ [cycle] }
            else s
          else dfs nodes fuel dep currentPath s) st
    { st with recStack := st.recStack.filter (fun x => x ≠ path) }

/-- `detectCircularDependencies`: run the depth-first search from every
unvisited node in insertion order.  The fuel bounds the recursion depth;
each nested call enters a node not yet visited, so `ns.length + 1` is
always enough. -/
def detectCircularDependencies (ns : List DependencyNode) : List (List String) :=
  ((ns.map (·.path)).foldl (fun st p =>
    if p ∈ st.visited then st else dfs ns (ns.length + 1) p [] st)
    { circular := [], visited := [], recStack := [] }).circular

/-- The missing-dependency loop of `analyzeDependencies`. -/
def computeMissingDeps (ns : List DependencyNode) : List MissingDep :=
  ns.flatMap fun n =>
    n.dependencies.filterMap fun dep =>
      if !(ns.any fun m => m.path = dep) && !isExternalDependency dep then
        some { file := n.path, missing := dep }
      else none

/-- The unused-file loop of `analyzeDependencies`. -/
def computeUnusedFiles (ns : List DependencyNode) : List String :=
  ns.filterMap fun n =>
    if n.dependents.length == 0 && !isEntryPoint n.path then some n.path
    else none

/-- `analyzeDependencies` of `lib/dependency-analyzer`. -/
def analyzeDependencies (files : List SFile) : DependencyGraph :=
  let ns := addDependents (buildNodes files)
  { nodes := ns
    circularDependencies := detectCircularDependencies ns
    missingDependencies := computeMissingDeps ns
    unusedFiles := computeUnusedFiles ns }

/-! ## Embedding of `lib/code-quality-analyzer` -/

/-- An input file as taken by `analyzeCodeQuality`. -/
structure QFile where
  path : String
  content : String
  language : String
deriving DecidableEq, Repr

/-- `CodeBlock` of the source. -/
structure CodeBlock where
  content : String
  startLine : Nat
  endLine : Nat
  file : String
deriving DecidableEq, Repr

/-- `DuplicateCode` of the source; the similarity score is kept as an
exact rational. -/
structure DuplicateCode where
  blocks : List CodeBlock
  similarity : ℚ
  lines : Nat
deriving DecidableEq, Repr

/-- `DeadCode` of the source; the `type` tag is one of `"function"`,
`"variable"`, `"import"`, `"class"`. -/
structure DeadCode where
  type : String
  name : String
  file : String
  line : Nat
  reason : String
deriving DecidableEq, Repr

/-- `RedundantCode` of the source. -/
structure RedundantCode where
  type : String
  file : String
  line : Nat
  message : String
  suggestion : String
deriving DecidableEq, Repr

/-- One entry of `complexityIssues`. -/
structure ComplexityIssue where
  file : String
  function : String
  complexity : Nat
  line : Nat
deriving DecidableEq, Repr

/-- `CodeQualityReport` of the source. -/
structure CodeQualityReport where
  duplicates : List DuplicateCode
  deadCode : List DeadCode
  redundantCode : List RedundantCode
  complexityIssues : List ComplexityIssue
deriving DecidableEq, Repr

/-- JavaScript `String.trim` (ASCII whitespace). -/
def trimJS (s : String) : String :=
  String.mk (((s.data.dropWhile isWsC).reverse.dropWhile isWsC).reverse)

/-- `/\s+/g`. -/
def wsPlusRegex : RE := rws1

/-- `/\/\/.*/g`. -/
def lineCommentRegex : RE := rseq [rlit "//", RE.star (RE.cls anyNoNl)]

/-- `/\/\*[\s\S]*?\*\//g` (lazy repetition). -/
def blockCommentRegex : RE :=
  rseq [rlit "/*", RE.starL (RE.cls fun _ => true), rlit "*/"]

/-- `normalizeCode`: collapse whitespace, then strip line comments, then
block comments, then trim. -/
def normalizeCode (code : String) : String :=
  trimJS (replaceAllStr blockCommentRegex ""
    (replaceAllStr lineCommentRegex "" (replaceAllStr wsPlusRegex " " code)))

/-- Count of positions where the two strings hold the same character (the
loop over `i < minLen` of `calculateSimilarity`). -/
def matchesCount : List Char → List Char → Nat
  | c :: cs, d :: ds => (if c = d then 1 else 0) + matchesCount cs ds
  | _, _ => 0

/-- `calculateSimilarity`: positional character matches divided by the
longer length; `1` when both strings are empty. -/
def calculateSimilarity (code1 code2 : String) : ℚ :=
  let maxLen := max code1.length code2.length
  if maxLen = 0 then 1
  else (matchesCount code1.data code2.data : ℚ) / (maxLen : ℚ)

/-- `minLines` constant of `findDuplicateCode`. -/
def minLines : Nat := 5

/-- The code-block windows generated from one file by
`findDuplicateCode`: window start `i` ranges over `i < lines.length -
minLines` and windows whose raw text trims to at most 50 characters are
skipped. -/
def blocksOfFile (f : QFile) : List CodeBlock :=
  let lines := jsSplit f.content "\n"
  (List.range (lines.length - minLines)).filterMap fun i =>
    let block := joinSep "\n" ((lines.drop i).take minLines)
    if (trimJS block).length > 50 then
      some { content := normalizeCode block, startLine := i + 1,
             endLine := i + minLines, file := f.path }
    else none

/-- All ordered pairs `(l[i], l[j])` with `i < j`, in the double-loop
order of the source. -/
def pairsAfter {α : Type} : List α → List (α × α)
  | [] => []
  | x :: xs => xs.map (fun y => (x, y)) ++ pairsAfter xs

/-- `findDuplicateCode`. -/
def findDuplicateCode (files : List QFile) : List DuplicateCode :=
  let allBlocks := files.flatMap blocksOfFile
  (pairsAfter allBlocks).filterMap fun ab =>
    let similarity := calculateSimilarity ab.1.content ab.2.content
    if similarity > (0.8 : ℚ) ∧ ab.1.file ≠ ab.2.file then
      some { blocks := [ab.1, ab.2], similarity := similarity, lines := minLines }
    else none

/-- An extracted import name with its line. -/
structure ImportName where
  name : String
  line : Nat
deriving DecidableEq, Repr

/-- An extracted function with its line and body. -/
structure FuncDecl where
  name : String
  line : Nat
  body : String
deriving DecidableEq, Repr

/-- An extracted variable with its line. -/
structure VarDecl where
  name : String
  line : Nat
deriving DecidableEq, Repr

/-- `/import\s+(?:{([^}]+)}|(\w+))\s+from/`. -/
def importMatchRegex : RE :=
  rseq [rlit "import", rws1,
    RE.alt (rseq [rlit "\x7b", RE.group 1 (rplus (RE.cls fun c => !(c == '}'))), rlit "\x7d"])
      (RE.group 2 (rplus (RE.cls isWordCh))),
    rws1, rlit "from"]

/-- `/\s+as\s+\w+/`. -/
def asRegex : RE := rseq [rws1, rlit "as", rws1, rplus (RE.cls isWordCh)]

/-- `/^(?:from\s+[\w.]+\s+)?import\s+([\w,\s]+)/`. -/
def pythonImportRegexQ : RE :=
  rseq [RE.bos, ropt (rseq [rlit "from", rws1, rplus (RE.cls wordDotCh), rws1]),
    rlit "import", rws1,
    RE.group 1 (rplus (RE.cls fun c => isWordCh c || c == ',' || isWsC c))]

/-- `/^import\s+([\w.]+);/`. -/
def javaImportRegexQ : RE :=
  rseq [RE.bos, rlit "import", rws1, RE.group 1 (rplus (RE.cls wordDotCh)), rlit ";"]

/-- `/^use\s+([\w\\]+)/`. -/
def phpUseRegexQ : RE :=
  rseq [RE.bos, rlit "use", rws1, RE.group 1 (rplus (RE.cls wordBsCh))]

/-- `/require(?:_once)?\s*$$\s*['"]([^'"]+)['"]\s*$$/`, exactly as written
in the source (the `$` are end-of-input anchors). -/
def phpRequireRegexQ : RE :=
  rseq [rlit "require", ropt (rlit "_once"), rws0, RE.eos, RE.eos, rws0,
    RE.cls quoteCh, RE.group 1 (rplus (RE.cls nonQuoteCh)), RE.cls quoteCh,
    rws0, RE.eos, RE.eos]

/-- Last element of a split unless it is missing or empty, in which case
the whole path is used (`parts.pop() || fullPath`). -/
def lastOrSelf (parts : List String) (fullPath : String) : String :=
  match parts.getLast? with
  | some l => if l = "" then fullPath else l
  | none => fullPath

/-- `extractImports` of `lib/code-quality-analyzer`: per-line first-match
extraction of import names. -/
def extractImportsQ (content : String) : List ImportName :=
  (jsSplit content "\n").enum.flatMap fun il =>
    let i := il.1
    let line := il.2
    (match reFirst importMatchRegex line with
     | some caps =>
       let names :=
         match capGet caps 1 with
         | some g1 => (jsSplit g1 ",").map trimJS
         | none => [(capGet caps 2).getD ""]
       names.map fun name =>
         { name := trimJS (replaceFirstStr asRegex "" name), line := i + 1 }
     | none => []) ++
    (match reFirst pythonImportRegexQ line with
     | some caps =>
       let names := (jsSplit ((capGet caps 1).getD "") ",").map trimJS
       names.map fun name =>
         { name := trimJS ((jsSplit name " as ").headD ""), line := i + 1 }
     | none => []) ++
    (match reFirst javaImportRegexQ line with
     | some caps =>
       let fullPath := (capGet caps 1).getD ""
       [{ name := lastOrSelf (jsSplit fullPath ".") fullPath, line := i + 1 }]
     | none => []) ++
    (match reFirst phpUseRegexQ line with
     | some caps =>
       let fullPath := (capGet caps 1).getD ""
       [{ name := lastOrSelf (jsSplit fullPath "\\") fullPath, line := i + 1 }]
     | none => []) ++
    (match reFirst phpRequireRegexQ line with
     | some caps => [{ name := (capGet caps 1).getD "", line := i + 1 }]
     | none => [])

/-- `/\b([a-zA-Z_$][a-zA-Z0-9_$]*)\b/g`. -/
def identifierRegex : RE :=
  rseq [RE.wb, RE.group 1 (RE.seq (RE.cls isIdentStart) (RE.star (RE.cls isIdentCont))), RE.wb]

/-- `extractUsedIdentifiers`: the set of identifier-shaped tokens of the
whole file, as a deduplicated list. -/
def extractUsedIdentifiers (content : String) : List String :=
  dedupeKeepFirst (reCaps1 identifierRegex content)

/-- `/function\s+(\w+)\s*\(/`. -/
def funcMatchRegex : RE :=
  rseq [rlit "function", rws1, RE.group 1 (rplus (RE.cls isWordCh)), rws0, rlit "("]

/-- `/(?:const|let|var)\s+(\w+)\s*=\s*(?:$$[^)]*$$|[^=]+)\s*=>/`, exactly
as written in the source (the first alternative contains `$` anchors). -/
def arrowMatchRegex : RE :=
  rseq [ralts [rlit "const", rlit "let", rlit "var"], rws1,
    RE.group 1 (rplus (RE.cls isWordCh)), rws0, rlit "=", rws0,
    RE.alt (rseq [RE.eos, RE.eos, RE.star (RE.cls fun c => !(c == ')')), RE.eos, RE.eos])
      (rplus (RE.cls fun c => !(c == '='))),
    rws0, rlit "=>"]

/-- `/^def\s+(\w+)\s*\(/`. -/
def pythonFuncRegex : RE :=
  rseq [RE.bos, rlit "def", rws1, RE.group 1 (rplus (RE.cls isWordCh)), rws0, rlit "("]

/-- `/(?:public|private|protected)?\s*(?:static)?\s*\w+\s+(\w+)\s*\(/`. -/
def javaMethodRegex : RE :=
  rseq [ropt (ralts [rlit "public", rlit "private", rlit "protected"]), rws0,
    ropt (rlit "static"), rws0, rplus (RE.cls isWordCh), rws1,
    RE.group 1 (rplus (RE.cls isWordCh)), rws0, rlit "("]

/-- Whether `sub` occurs as a contiguous substring of `s`
(JavaScript `String.includes`). -/
def hasSubstr (s sub : String) : Bool :=
  let rec go : List Char → Bool
    | [] => sub.data.isPrefixOf []
    | c :: cs => sub.data.isPrefixOf (c :: cs) || go cs
  go s.data

/-- `extractFunctionBody`: brace-balanced scan from the declaration line. -/
def fbLoop : List String → Int → Bool → String → String
  | [], _, _, body => body
  | l :: rest, braceCount, started, body =>
    let body := body ++ l ++ "\n"
    let p := l.data.foldl (fun (ab : Int × Bool) c =>
      if c = '{' then (ab.1 + 1, true)
      else if c = '}' then (ab.1 - 1, ab.2)
      else ab) (braceCount, started)
    if p.2 && p.1 == 0 then body else fbLoop rest p.1 p.2 body

/-- `extractFunctionBody` of the source. -/
def extractFunctionBody (content : String) (startLine : Nat) : String :=
  fbLoop ((jsSplit content "\n").drop startLine) 0 false ""

/-- `line.search(/\S/)`: index of the first non-whitespace character,
`-1` when there is none. -/
def searchNonWs (l : String) : Int :=
  let rec go : List Char → Nat → Int
    | [], _ => -1
    | c :: cs, k => if isWsC c then go cs (k + 1) else (k : Int)
  go l.data 0

/-- The indentation-delta loop of `extractPythonFunctionBody`. -/
def pyLoop : List String → Int → String → String
  | [], _, body => body
  | l :: rest, baseIndent, body =>
    let indent := searchNonWs l
    let baseIndent := if baseIndent = -1 ∧ 0 < indent then indent else baseIndent
    if indent < baseIndent ∧ trimJS l ≠ "" then body
    else pyLoop rest baseIndent (body ++ l ++ "\n")

/-- `extractPythonFunctionBody` of the source. -/
def extractPythonFunctionBody (content : String) (startLine : Nat) : String :=
  match (jsSplit content "\n").drop startLine with
  | [] => ""
  | l0 :: rest => pyLoop rest (-1) (l0 ++ "\n")

/-- `extractFunctions`: per-line detection of function declarations, in
the source's order (declaration, arrow, Python, Java heuristic, PHP). -/
def extractFunctions (content : String) : List FuncDecl :=
  (jsSplit content "\n").enum.flatMap fun il =>
    let i := il.1
    let line := il.2
    (match reFirst funcMatchRegex line with
     | some caps =>
       [{ name := (capGet caps 1).getD "", line := i + 1,
          body := extractFunctionBody content i }]
     | none => []) ++
    (match reFirst arrowMatchRegex line with
     | some caps =>
       [{ name := (capGet caps 1).getD "", line := i + 1,
          body := extractFunctionBody content i }]
     | none => []) ++
    (match reFirst pythonFuncRegex line with
     | some caps =>
       [{ name := (capGet caps 1).getD "", line := i + 1,
          body := extractPythonFunctionBody content i }]
     | none => []) ++
    (match reFirst javaMethodRegex line with
     | some caps =>
       if !hasSubstr line "class " then
         [{ name := (capGet caps 1).getD "", line := i + 1,
            body := extractFunctionBody content i }]
       else []
     | none => []) ++
    (match reFirst funcMatchRegex line with
     | some caps =>
       [{ name := (capGet caps 1).getD "", line := i + 1,
          body := extractFunctionBody content i }]
     | none => [])

/-- `/(?:const|let|var)\s+(\w+)\s*=/`. -/
def varRegex : RE :=
  rseq [ralts [rlit "const", rlit "let", rlit "var"], rws1,
    RE.group 1 (rplus (RE.cls isWordCh)), rws0, rlit "="]

/-- `extractVariables`. -/
def extractVariables (content : String) : List VarDecl :=
  (jsSplit content "\n").enum.flatMap fun il =>
    match reFirst varRegex il.2 with
    | some caps => [{ name := (capGet caps 1).getD "", line := il.1 + 1 }]
    | none => []

/-- `countUsages`: number of word-bounded occurrences of the identifier. -/
def countUsages (content identifier : String) : Nat :=
  reCount (rseq [RE.wb, RE.lit identifier.data, RE.wb]) content

/-- `/\bif\b/g`. -/
def rIf : RE := rseq [RE.wb, rlit "if", RE.wb]

/-- `/\belse\s+if\b/g`. -/
def rElseIf : RE := rseq [RE.wb, rlit "else", rws1, rlit "if", RE.wb]

/-- `/\bwhile\b/g`. -/
def rWhile : RE := rseq [RE.wb, rlit "while", RE.wb]

/-- `/\bfor\b/g`. -/
def rFor : RE := rseq [RE.wb, rlit "for", RE.wb]

/-- `/\bcase\b/g`. -/
def rCase : RE := rseq [RE.wb, rlit "case", RE.wb]

/-- `/\bcatch\b/g`. -/
def rCatch : RE := rseq [RE.wb, rlit "catch", RE.wb]

/-- `/\b&&\b/g`: note the word boundaries require a word character
directly on each side of the ampersands. -/
def rAmpAmp : RE := rseq [RE.wb, rlit "&&", RE.wb]

/-- `/\b\|\|\b/g`. -/
def rOrOr : RE := rseq [RE.wb, rlit "||", RE.wb]

/-- `/\?\s*.*\s*:/g`. -/
def rTernary : RE := rseq [rlit "?", rws0, RE.star (RE.cls anyNoNl), rws0, rlit ":"]

/-- The source's `decisionKeywords` list, in order. -/
def decisionKeywords : List RE :=
  [rIf, rElseIf, rWhile, rFor, rCase, rCatch, rAmpAmp, rOrOr, rTernary]

/-- `calculateCyclomaticComplexity`: one plus the match counts of the nine
decision patterns. -/
def calculateCyclomaticComplexity (code : String) : Nat :=
  decisionKeywords.foldl (fun c r => c + reCount r code) 1

/-- `/if\s*$$\s*true\s*$$/`, exactly as written in the source. -/
def rIfTrue : RE :=
  rseq [rlit "if", rws0, RE.eos, RE.eos, rws0, rlit "true", rws0, RE.eos, RE.eos]

/-- `/if\s*$$\s*false\s*$$/`, exactly as written in the source. -/
def rIfFalse : RE :=
  rseq [rlit "if", rws0, RE.eos, RE.eos, rws0, rlit "false", rws0, RE.eos, RE.eos]

/-- `/if\s+True:/`. -/
def rPyIfTrue : RE := rseq [rlit "if", rws1, rlit "True:"]

/-- `/pass\s*$/` tested on a single line, so `$` is the end of the line. -/
def rPassEnd : RE := rseq [rlit "pass", rws0, RE.eos]

/-- `/System\.out\.println/`. -/
def rSysOut : RE := rlit "System.out.println"

/-- `/var_dump|print_r/`. -/
def rVarDump : RE := RE.alt (rlit "var_dump") (rlit "print_r")

/-- `/!!\w+/`. -/
def rDoubleNeg : RE := rseq [rlit "!!", rplus (RE.cls isWordCh)]

/-- `/console\.(log|debug|info|warn)\(/g`. -/
def rConsole : RE :=
  rseq [rlit "console.", ralts [rlit "log", rlit "debug", rlit "info", rlit "warn"], rlit "("]

/-- `findRedundantCode`: the per-line rule table, in source order. -/
def findRedundantCode (files : List QFile) : List RedundantCode :=
  files.flatMap fun f =>
    (jsSplit f.content "\n").enum.flatMap fun il =>
      let index := il.1
      let line := il.2
      (if reTestStr rIfTrue line then
        [{ type := "redundant_condition", file := f.path, line := index + 1,
           message := "Condition is always true",
           suggestion := "Remove the if statement and keep only the code block" }]
       else []) ++
      (if reTestStr rIfFalse line then
        [{ type := "redundant_condition", file := f.path, line := index + 1,
           message := "Condition is always false",
           suggestion := "Remove this entire if block as it will never execute" }]
       else []) ++
      (if f.language = "py" then
        (if reTestStr rPyIfTrue line then
          [{ type := "redundant_condition", file := f.path, line := index + 1,
             message := "Condition is always True",
             suggestion := "Remove the if statement and unindent the code block" }]
         else []) ++
        (if reTestStr rPassEnd line ∧ 0 < index then
          [{ type := "unused_code", file := f.path, line := index + 1,
             message := "Empty pass statement",
             suggestion := "Remove pass or add implementation" }]
         else [])
       else []) ++
      (if f.language = "java" then
        (if reTestStr rSysOut line then
          [{ type := "unused_code", file := f.path, line := index + 1,
             message := "Debug print statement found",
             suggestion := "Remove System.out.println before production" }]
         else [])
       else []) ++
      (if f.language = "php" then
        (if reTestStr rVarDump line then
          [{ type := "unused_code", file := f.path, line := index + 1,
             message := "Debug statement found",
             suggestion := "Remove var_dump/print_r before production" }]
         else [])
       else []) ++
      (if reTestStr rDoubleNeg line then
        [{ type := "unnecessary_complexity", file := f.path, line := index + 1,
           message := "Double negation detected",
           suggestion := "Use Boolean() or remove unnecessary negations" }]
       else []) ++
      (if reTestStr rConsole line then
        [{ type := "unused_code", file := f.path, line := index + 1,
           message := "Console statement found",
           suggestion := "Remove console statements before production deployment" }]
       else [])

/-- `analyzeComplexity`: report every detected function whose cyclomatic
complexity exceeds 10. -/
def analyzeComplexity (files : List QFile) : List ComplexityIssue :=
  files.flatMap fun f =>
    (extractFunctions f.content).filterMap fun func =>
      let complexity := calculateCyclomaticComplexity func.body
      if complexity > 10 then
        some { file := f.path, function := func.name,
               complexity := complexity, line := func.line }
      else none

/-- `findDeadCode`: unused imports, unused functions and unused variables
per file. -/
def findDeadCode (files : List QFile) (dependencyGraph : DependencyGraph) : List DeadCode :=
  files.flatMap fun f =>
    let imports := extractImportsQ f.content
    let usedIdentifiers := extractUsedIdentifiers f.content
    (imports.filterMap fun imp =>
      if !usedIdentifiers.contains imp.name then
        some { type := "import", name := imp.name, file := f.path,
               line := imp.line, reason := "Import is never used in this file" }
      else none) ++
    (let functions := extractFunctions f.content
     let node := dependencyGraph.nodes.find? fun n => n.path = f.path
     functions.filterMap fun func =>
       let isExported :=
         match node with
         | some n => n.exports.contains func.name
         | none => false
       let isUsedInternally := usedIdentifiers.contains func.name
       if !isExported && !isUsedInternally then
         some { type := "function", name := func.name, file := f.path,
                line := func.line, reason := "Function is never called or exported" }
       else none) ++
    ((extractVariables f.content).filterMap fun v =>
      if countUsages f.content v.name == 1 then
        some { type := "variable", name := v.name, file := f.path,
               line := v.line, reason := "Variable is declared but never used" }
      else none)

/-- `analyzeCodeQuality` of `lib/code-quality-analyzer`. -/
def analyzeCodeQuality (files : List QFile) (dependencyGraph : DependencyGraph) :
    CodeQualityReport :=
  { duplicates := findDuplicateCode files
    deadCode := findDeadCode files dependencyGraph
    redundantCode := findRedundantCode files
    complexityIssues := analyzeComplexity files }

/-! ## Helper lemmas -/

/-- Pointwise-equal functions map lists equally. -/
theorem listMapExt {α β : Type} (f g : α → β) (h : ∀ a, f a = g a) :
    ∀ l : List α, l.map f = l.map g := by
  intro l
  induction l with
  | nil => rfl
  | cons x xs ih => simp [h x, ih]

/-- `matchesCount` is symmetric in its arguments. -/
theorem matchesCount_comm : ∀ xs ys : List Char, matchesCount xs ys = matchesCount ys xs := by
  intro xs
  induction xs with
  | nil => intro ys; cases ys <;> simp [matchesCount]
  | cons c cs ih =>
    intro ys
    cases ys with
    | nil => simp [matchesCount]
    | cons d ds =>
      simp only [matchesCount, ih ds]
      congr 1
      by_cases h : c = d
      · simp [h]
      · rw [if_neg h, if_neg (fun hdc : d = c => h hdc.symm)]

/-! ## Claims -/

/-- C1: the spec example `{c.ts: 'import "./missing"'}` is required to
yield `missing = [{file: "c.ts", missing: "./missing"}]`.  The code
extracts the specifier but `resolveImportPaths` silently drops relative
specifiers with no matching candidate, so `dependencies` only ever holds
paths present in the file set and the missing-dependency loop can never
fire: `missingDependencies` is empty on the spec's own example. -/
theorem claim_C1_missing_list_empty :
    (analyzeDependencies [⟨"c.ts", "import \"./missing\""⟩]).nodes.map
      DependencyNode.imports = [["./missing"]] ∧
    (analyzeDependencies [⟨"c.ts", "import \"./missing\""⟩]).missingDependencies = [] := by
  decide

/-- C2: the spec example `{a.ts: 'import "./b"', b.ts: 'import "./a"'}` is
required to yield one 3-cycle, no missing dependencies and no unused
files.  For a root-level file `a.ts` the importing directory is the empty
string, so `./b` normalizes to `/b` and none of the probed candidates
(`/b.ts`, ...) equals `b.ts`: both dependency lists come out empty, no
cycle is found, and both files are reported unused. -/
theorem claim_C2_example_yields_no_cycle :
    (analyzeDependencies [⟨"a.ts", "import \"./b\""⟩, ⟨"b.ts", "import \"./a\""⟩]).circularDependencies = [] ∧
    (analyzeDependencies [⟨"a.ts", "import \"./b\""⟩, ⟨"b.ts", "import \"./a\""⟩]).missingDependencies = [] ∧
    (analyzeDependencies [⟨"a.ts", "import \"./b\""⟩, ⟨"b.ts", "import \"./a\""⟩]).unusedFiles = ["a.ts", "b.ts"] := by
  decide

/-- C4: a content containing the CommonJS call `require("lodash")` (and
one containing the bare dynamic `import("lodash")`) is required to have
the specifier extracted, but the require/dynamic-import patterns are
written with `$$` (two end-of-input anchors followed by further required
characters) where escaped parentheses were intended, so they can never
match and nothing is extracted. -/
theorem claim_C4_require_import_not_extracted :
    hasSubstr "const x = require(\"lodash\")" "require(\"lodash\")" = true ∧
    extractImports "const x = require(\"lodash\")" = [] ∧
    hasSubstr "const y = import(\"lodash\")" "import(\"lodash\")" = true ∧
    extractImports "const y = import(\"lodash\")" = [] := by
  decide

/-- C5: `foo` is detected as a function three times over (declaration,
Java heuristic and PHP pattern all match), is not exported, and occurs in
the file exactly once (its own declaration); the claim requires a
dead-code finding of type `function`, but `extractUsedIdentifiers` scans
the whole file including the declaration line, so every detected
function's name is always "used" and `findDeadCode` reports nothing. -/
theorem claim_C5_unused_function_unreported :
    (extractFunctions "function foo()").map FuncDecl.name = ["foo", "foo", "foo"] ∧
    (analyzeDependencies [⟨"a.ts", "function foo()"⟩]).nodes.map
      DependencyNode.exports = [[]] ∧
    countUsages "function foo()" "foo" = 1 ∧
    findDeadCode [⟨"a.ts", "function foo()", "ts"⟩]
      (analyzeDependencies [⟨"a.ts", "function foo()"⟩]) = [] := by
  decide

/-- C6 counterexample: this body contains exactly two `if` keywords,
exactly one `&&` operator and no other decision-point token, yet the
computed complexity is 3, not the claimed 4: the `\b&&\b` pattern needs a
word character directly on each side of the ampersands, and here the `&&`
is surrounded by spaces. -/
theorem claim_C6_counterexample :
    reCount rIf "if (a && b) x\nif (c) y" = 2 ∧
    reCount (rlit "&&") "if (a && b) x\nif (c) y" = 1 ∧
    reCount rElseIf "if (a && b) x\nif (c) y" = 0 ∧
    reCount rWhile "if (a && b) x\nif (c) y" = 0 ∧
    reCount rFor "if (a && b) x\nif (c) y" = 0 ∧
    reCount rCase "if (a && b) x\nif (c) y" = 0 ∧
    reCount rCatch "if (a && b) x\nif (c) y" = 0 ∧
    reCount (rlit "||") "if (a && b) x\nif (c) y" = 0 ∧
    reCount (rlit "?") "if (a && b) x\nif (c) y" = 0 ∧
    calculateCyclomaticComplexity "if (a && b) x\nif (c) y" = 3 := by
  decide

/-- C6 amended: for every function body in which the source's nine
decision patterns count two `if`, one word-flanked `&&` (as in `a&&b`)
and nothing else, `calculateCyclomaticComplexity` returns 1 + 3 = 4. -/
theorem claim_C6_amended_complexity (body : String)
    (h1 : reCount rIf body = 2) (h2 : reCount rElseIf body = 0)
    (h3 : reCount rWhile body = 0) (h4 : reCount rFor body = 0)
    (h5 : reCount rCase body = 0) (h6 : reCount rCatch body = 0)
    (h7 : reCount rAmpAmp body = 1) (h8 : reCount rOrOr body = 0)
    (h9 : reCount rTernary body = 0) :
    calculateCyclomaticComplexity body = 4 := by
  simp [calculateCyclomaticComplexity, decisionKeywords,
    h1, h2, h3, h4, h5, h6, h7, h8, h9]

/-- C6 amended, witnessed on a concrete body with the `&&` written
between word characters. -/
theorem claim_C6_amended_witness :
    calculateCyclomaticComplexity "if (a&&b) x\nif (c) y" = 4 :=
  claim_C6_amended_complexity "if (a&&b) x\nif (c) y" (by decide) (by decide)
    (by decide) (by decide) (by decide) (by decide) (by decide) (by decide)
    (by decide)

/-- C8: `calculateSimilarity` is symmetric: positional character matches
and the maximum length are both symmetric in the two blocks. -/
theorem claim_C8_similarity_symmetric (a b : String) :
    calculateSimilarity a b = calculateSimilarity b a := by
  simp only [calculateSimilarity]
  rw [Nat.max_comm a.length b.length, matchesCount_comm a.data b.data]

/-- C9 counterexample: a single file with empty content is claimed to
produce an entirely empty graph, but its node has no dependents and
`x.ts` matches no entry-point pattern, so it is listed in `unusedFiles`. -/
theorem claim_C9_counterexample :
    (analyzeDependencies [⟨"x.ts", ""⟩]).unusedFiles = ["x.ts"] ∧
    (analyzeDependencies [⟨"x.ts", ""⟩]).unusedFiles ≠ [] := by
  decide

/-- A flatMap over a list each of whose elements maps to `[]` is `[]`. -/
theorem flatMap_nil_of_all {α β : Type} (l : List α) (f : α → List β)
    (h : ∀ a ∈ l, f a = []) : l.flatMap f = [] := by
  induction l with
  | nil => rfl
  | cons x xs ih =>
    simp only [List.flatMap_cons]
    rw [h x (by simp), ih (fun a ha => h a (by simp [ha]))]
    rfl

/-- A file whose content holds at most five lines generates no windows:
the window loop bound is `lines.length - minLines`. -/
theorem blocksOfFile_eq_nil (f : QFile)
    (h : (jsSplit f.content "\n").length ≤ 5) : blocksOfFile f = [] := by
  have h0 : (jsSplit f.content "\n").length - minLines = 0 := by
    simp only [minLines]
    exact Nat.sub_eq_zero_of_le h
  simp [blocksOfFile, h0]

/-- C10: when every input file's content has five or fewer lines,
duplicate detection generates no code-block windows at all, so no
duplicate pair is reported; in particular two files with identical
five-line contents are never reported. -/
theorem claim_C10_short_files_no_windows (files : List QFile)
    (h : ∀ f ∈ files, (jsSplit f.content "\n").length ≤ 5) :
    (∀ f ∈ files, blocksOfFile f = []) ∧ findDuplicateCode files = [] := by
  have hb : ∀ f ∈ files, blocksOfFile f = [] :=
    fun f hf => blocksOfFile_eq_nil f (h f hf)
  refine ⟨hb, ?_⟩
  have hfm : files.flatMap blocksOfFile = [] := flatMap_nil_of_all files _ hb
  simp [findDuplicateCode, hfm, pairsAfter]

/-- C10, witnessed on two files with identical five-line contents (long
enough that the 50-character filter would keep their windows, were any
generated). -/
theorem claim_C10_witness :
    blocksOfFile ⟨"a.ts", "abcdefghijklmnopqrstuvwxyz0123456789\nabc\nabc\nabc\nabc", "ts"⟩ = [] ∧
    findDuplicateCode
      [⟨"a.ts", "abcdefghijklmnopqrstuvwxyz0123456789\nabc\nabc\nabc\nabc", "ts"⟩,
       ⟨"b.ts", "abcdefghijklmnopqrstuvwxyz0123456789\nabc\nabc\nabc\nabc", "ts"⟩] = [] :=
  ⟨(claim_C10_short_files_no_windows
      [⟨"a.ts", "abcdefghijklmnopqrstuvwxyz0123456789\nabc\nabc\nabc\nabc", "ts"⟩,
       ⟨"b.ts", "abcdefghijklmnopqrstuvwxyz0123456789\nabc\nabc\nabc\nabc", "ts"⟩]
      (by decide)).1 _ (by simp),
   (claim_C10_short_files_no_windows
      [⟨"a.ts", "abcdefghijklmnopqrstuvwxyz0123456789\nabc\nabc\nabc\nabc", "ts"⟩,
       ⟨"b.ts", "abcdefghijklmnopqrstuvwxyz0123456789\nabc\nabc\nabc\nabc", "ts"⟩]
      (by decide)).2⟩

/-- C7: a node with no dependents whose path matches no entry-point
pattern is listed in `unusedFiles`; and no node map whatsoever puts
`index.ts` in the unused list, because `index.ts` matches the `^index\.`
entry pattern while every reported path comes from a node that failed the
entry-point test — so re-keying any unused node to `index.ts` with the
same edges removes it from the list. -/
theorem claim_C7_unused_detection :
    (∀ (files : List SFile) (n : DependencyNode),
        n ∈ (analyzeDependencies files).nodes → n.dependents = [] →
        isEntryPoint n.path = false →
        n.path ∈ (analyzeDependencies files).unusedFiles) ∧
    (∀ ns : List DependencyNode, "index.ts" ∉ computeUnusedFiles ns) := by
  constructor
  · intro files n hn hdep hentry
    show n.path ∈ computeUnusedFiles (analyzeDependencies files).nodes
    exact List.mem_filterMap.mpr ⟨n, hn, by simp [hdep, hentry]⟩
  · intro ns hmem
    obtain ⟨n, _, hsome⟩ := List.mem_filterMap.mp hmem
    split at hsome
    case isTrue hcond =>
      have hpath : n.path = "index.ts" := Option.some.inj hsome
      simp only [Bool.and_eq_true] at hcond
      have h2 := hcond.2
      rw [hpath] at h2
      have hep : isEntryPoint "index.ts" = true := by decide
      rw [hep] at h2
      exact Bool.noConfusion h2
    case isFalse => exact Option.noConfusion hsome

/-- C7, witnessed: a lone non-entry file is reported unused, and a node
keyed `index.ts` is never reported. -/
theorem claim_C7_unused_witness :
    "z.ts" ∈ (analyzeDependencies [⟨"z.ts", ""⟩]).unusedFiles ∧
    "index.ts" ∉ computeUnusedFiles [⟨"index.ts", [], [], [], []⟩] :=
  ⟨claim_C7_unused_detection.1 [⟨"z.ts", ""⟩] ⟨"z.ts", [], [], [], []⟩
      (by decide) rfl (by decide),
   claim_C7_unused_detection.2 [⟨"index.ts", [], [], [], []⟩]⟩

/-! ## The dependents invariant (second pass of the graph builder) -/

/-- The individual `(dependency, dependent)` pushes performed by the
second pass, flattened in execution order. -/
def pushList (pairs : List (String × List String)) : List (String × String) :=
  pairs.flatMap fun pd => pd.2.map fun d => (d, pd.1)

/-- The nested fold of the second pass equals the flat fold over the
flattened push list. -/
theorem foldl_push_flat (pairs : List (String × List String)) (ns : List DependencyNode) :
    pairs.foldl (fun acc pd => pd.2.foldl (fun a d => pushDependent d pd.1 a) acc) ns
    = (pushList pairs).foldl (fun a dp => pushDependent dp.1 dp.2 a) ns := by
  induction pairs generalizing ns with
  | nil => rfl
  | cons pd rest ih =>
    simp only [List.foldl_cons, pushList, List.flatMap_cons, List.foldl_append]
    rw [ih]
    congr 1
    rw [List.foldl_map]

/-- Folding pushes over a node list appends, to each node, exactly the
dependents recorded for its path in the push list. -/
theorem foldl_push_char (L : List (String × String)) (ns : List DependencyNode) :
    L.foldl (fun a dp => pushDependent dp.1 dp.2 a) ns
    = ns.map fun n =>
        { n with dependents :=
            n.dependents ++ (L.filter fun dp => dp.1 == n.path).map Prod.snd } := by
  induction L generalizing ns with
  | nil =>
    simp only [List.foldl_nil, List.filter_nil, List.map_nil, List.append_nil]
    exact ((listMapExt _ id (fun a => rfl) ns).trans (List.map_id ns)).symm
  | cons dp L ih =>
    simp only [List.foldl_cons]
    rw [ih]
    simp only [pushDependent, List.map_map]
    apply listMapExt
    intro n
    by_cases hp : n.path = dp.1
    · simp [Function.comp, hp, List.filter_cons]
    · simp [Function.comp, hp, List.filter_cons, Ne.symm hp]

/-- Closed form of the second pass: each node keeps all its fields and
gains, as dependents, the paths of the nodes that declare it as a
dependency (with multiplicity, in pass order). -/
theorem addDependents_char (ns : List DependencyNode) :
    addDependents ns
    = ns.map fun n =>
        { n with dependents :=
            n.dependents ++
              ((pushList (ns.map fun k => (k.path, k.dependencies))).filter
                (fun dp => dp.1 == n.path)).map Prod.snd } := by
  unfold addDependents
  rw [foldl_push_flat, foldl_push_char]

/-- Membership in a `setNode` result comes from the old list or is the
inserted node. -/
theorem mem_setNode {x n : DependencyNode} :
    ∀ {ns : List DependencyNode}, x ∈ setNode ns n → x ∈ ns ∨ x = n := by
  intro ns
  induction ns with
  | nil => intro h; right; simpa [setNode] using h
  | cons m ms ih =>
    intro h
    rw [setNode] at h
    split at h
    · rcases List.mem_cons.mp h with h1 | h1
      · right; exact h1
      · left; exact List.mem_cons_of_mem m h1
    · rcases List.mem_cons.mp h with h1 | h1
      · left; exact h1 ▸ List.mem_cons_self m ms
      · rcases ih h1 with h2 | h2
        · left; exact List.mem_cons_of_mem m h2
        · right; exact h2

/-- Every node produced by the first pass has an empty dependents list. -/
theorem buildNodes_deps_nil (files : List SFile) :
    ∀ n ∈ buildNodes files, n.dependents = [] := by
  have h : ∀ (fs : List SFile) (acc : List DependencyNode),
      (∀ n ∈ acc, n.dependents = []) →
      ∀ n ∈ fs.foldl (fun acc f => setNode acc (mkNode files f)) acc,
        n.dependents = [] := by
    intro fs
    induction fs with
    | nil => intro acc hacc n hn; exact hacc n hn
    | cons f fs ih =>
      intro acc hacc n hn
      refine ih (setNode acc (mkNode files f)) ?_ n hn
      intro m hm
      rcases mem_setNode hm with h1 | h1
      · exact hacc m h1
      · rw [h1]; rfl
  exact h files [] (by intro n hn; cases hn)

/-- C3: after `analyzeDependencies`, for every node `n` of the graph, the
paths in `n.dependents` are exactly the paths of the graph nodes whose
dependency list contains `n.path` — the back-references of the second
pass are sound and complete. -/
theorem claim_C3_dependents_sound_complete (files : List SFile) (n : DependencyNode)
    (hn : n ∈ (analyzeDependencies files).nodes) (q : String) :
    q ∈ n.dependents ↔
      ∃ m ∈ (analyzeDependencies files).nodes, m.path = q ∧ n.path ∈ m.dependencies := by
  have hnodes : (analyzeDependencies files).nodes = addDependents (buildNodes files) := rfl
  rw [hnodes] at hn ⊢
  rw [addDependents_char] at hn ⊢
  obtain ⟨n0, hn0, hFn⟩ := List.mem_map.mp hn
  subst hFn
  have hd0 : n0.dependents = [] := buildNodes_deps_nil files n0 hn0
  simp only [hd0, List.nil_append, List.mem_map, List.mem_filter, pushList,
    List.mem_flatMap, beq_iff_eq, exists_exists_and_eq_and]
  constructor
  · rintro ⟨a, ⟨⟨m, hm, d, hd, hda⟩, h1⟩, h2⟩
    subst hda
    dsimp only at h1 h2
    exact ⟨m, hm, h2, h1 ▸ hd⟩
  · rintro ⟨m, hm, hq, hmem⟩
    exact ⟨(n0.path, m.path), ⟨⟨m, hm, n0.path, hmem, rfl⟩, rfl⟩, hq⟩

/-- C3, witnessed on a two-file set in a subdirectory where resolution
succeeds: the node `s/b.ts` has dependents exactly `[s/a.ts]`. -/
theorem claim_C3_dependents_witness :
    ("s/a.ts" ∈ (⟨"s/b.ts", [], [], [], ["s/a.ts"]⟩ : DependencyNode).dependents ↔
      ∃ m ∈ (analyzeDependencies [⟨"s/a.ts", "import \"./b\""⟩, ⟨"s/b.ts", "x"⟩]).nodes,
        m.path = "s/a.ts" ∧
          (⟨"s/b.ts", [], [], [], ["s/a.ts"]⟩ : DependencyNode).path ∈ m.dependencies) :=
  claim_C3_dependents_sound_complete [⟨"s/a.ts", "import \"./b\""⟩, ⟨"s/b.ts", "x"⟩]
    ⟨"s/b.ts", [], [], [], ["s/a.ts"]⟩ (by decide) "s/a.ts"

/-- Unfolding of `analyzeDependencies` into its four components. -/
theorem analyzeDependencies_def (files : List SFile) :
    analyzeDependencies files =
      { nodes := addDependents (buildNodes files),
        circularDependencies := detectCircularDependencies (addDependents (buildNodes files)),
        missingDependencies := computeMissingDeps (addDependents (buildNodes files)),
        unusedFiles := computeUnusedFiles (addDependents (buildNodes files)) } := rfl

/-- The depth-first search on a graph whose nodes all have empty
dependency lists records no cycle: it only marks the entered node visited
and restores the recursion stack. -/
theorem dfs_no_deps (nodes : List DependencyNode)
    (hnd : ∀ n ∈ nodes, n.dependencies = []) (fuel : Nat) (hf : fuel ≠ 0)
    (path : String) (cp : List String) (st : DfsState) :
    dfs nodes fuel path cp st =
      { circular := st.circular, visited := st.visited ++ [path],
        recStack := (st.recStack ++ [path]).filter (fun x => x ≠ path) } := by
  cases fuel with
  | zero => exact absurd rfl hf
  | succ f =>
    rw [dfs]
    cases hfind : nodes.find? (fun n => n.path = path) with
    | none => simp [hfind]
    | some node =>
      have hdep : node.dependencies = [] :=
        hnd node (List.mem_of_find?_eq_some hfind)
      simp [hfind, hdep]

/-- C9 amended: the degenerate inputs are all valid (the embedding is
total): the empty file set produces the empty graph and empty report;
and for every path and language tag, a single file with empty content
produces one edge-free node, no cycles, no missing dependencies and an
empty quality report, but is itself listed in `unusedFiles` exactly when
its path matches no entry-point pattern. -/
theorem claim_C9_amended_degenerate_inputs (p lang : String) :
    analyzeDependencies [] =
      { nodes := [], circularDependencies := [], missingDependencies := [],
        unusedFiles := [] } ∧
    analyzeCodeQuality [] (analyzeDependencies []) =
      { duplicates := [], deadCode := [], redundantCode := [],
        complexityIssues := [] } ∧
    (analyzeDependencies [⟨p, ""⟩]).nodes = [⟨p, [], [], [], []⟩] ∧
    (analyzeDependencies [⟨p, ""⟩]).circularDependencies = [] ∧
    (analyzeDependencies [⟨p, ""⟩]).missingDependencies = [] ∧
    analyzeCodeQuality [⟨p, "", lang⟩] (analyzeDependencies [⟨p, ""⟩]) =
      { duplicates := [], deadCode := [], redundantCode := [],
        complexityIssues := [] } ∧
    (analyzeDependencies [⟨p, ""⟩]).unusedFiles =
      (if isEntryPoint p then [] else [p]) := by
  have hni : extractImports "" = [] := by decide
  have hne : extractExports "" = [] := by decide
  have hb : buildNodes [⟨p, ""⟩] = [⟨p, [], [], [], []⟩] := by
    simp [buildNodes, setNode, mkNode, hni, hne, resolveImportPaths]
  have had : addDependents [(⟨p, [], [], [], []⟩ : DependencyNode)] = [⟨p, [], [], [], []⟩] := by
    simp [addDependents]
  have hba : addDependents (buildNodes [⟨p, ""⟩]) = [⟨p, [], [], [], []⟩] := by
    rw [hb, had]
  have hnodes : (analyzeDependencies [⟨p, ""⟩]).nodes = [⟨p, [], [], [], []⟩] := by
    rw [analyzeDependencies_def, hba]
  have hcirc : (analyzeDependencies [⟨p, ""⟩]).circularDependencies = [] := by
    rw [analyzeDependencies_def, hba]
    unfold detectCircularDependencies
    simp only [List.map_cons, List.map_nil, List.foldl_cons, List.foldl_nil]
    rw [if_neg (List.not_mem_nil p)]
    rw [dfs_no_deps _ (by intro n hn; rw [List.mem_singleton.mp hn]) _ (by simp) _ _ _]
  have hmiss : (analyzeDependencies [⟨p, ""⟩]).missingDependencies = [] := by
    rw [analyzeDependencies_def, hba]
    simp [computeMissingDeps]
  have hunused : (analyzeDependencies [⟨p, ""⟩]).unusedFiles =
      (if isEntryPoint p then [] else [p]) := by
    rw [analyzeDependencies_def, hba]
    by_cases hep : isEntryPoint p = true
    · simp [computeUnusedFiles, hep]
    · simp [computeUnusedFiles, hep]
  have h55 : (jsSplit "" "\n").length ≤ 5 := by decide
  have hbl : blocksOfFile ⟨p, "", lang⟩ = [] :=
    blocksOfFile_eq_nil ⟨p, "", lang⟩ h55
  have hdup : findDuplicateCode [⟨p, "", lang⟩] = [] := by
    simp [findDuplicateCode, hbl, pairsAfter]
  have hidQ : extractImportsQ "" = [] := by decide
  have hfn : extractFunctions "" = [] := by decide
  have hvar : extractVariables "" = [] := by decide
  have hdead : ∀ g : DependencyGraph, findDeadCode [⟨p, "", lang⟩] g = [] := by
    intro g
    simp [findDeadCode, hidQ, hfn, hvar]
  have hsplit : jsSplit "" "\n" = [""] := by decide
  have ht1 : reTestStr rIfTrue "" = false := by decide
  have ht2 : reTestStr rIfFalse "" = false := by decide
  have ht3 : reTestStr rPyIfTrue "" = false := by decide
  have ht4 : reTestStr rPassEnd "" = false := by decide
  have ht5 : reTestStr rSysOut "" = false := by decide
  have ht6 : reTestStr rVarDump "" = false := by decide
  have ht7 : reTestStr rDoubleNeg "" = false := by decide
  have ht8 : reTestStr rConsole "" = false := by decide
  have hred : findRedundantCode [⟨p, "", lang⟩] = [] := by
    simp [findRedundantCode, hsplit, ht1, ht2, ht3, ht4, ht5, ht6, ht7, ht8]
  have hcx : analyzeComplexity [⟨p, "", lang⟩] = [] := by
    simp [analyzeComplexity, hfn]
  have hq : analyzeCodeQuality [⟨p, "", lang⟩] (analyzeDependencies [⟨p, ""⟩]) =
      { duplicates := [], deadCode := [], redundantCode := [],
        complexityIssues := [] } := by
    simp [analyzeCodeQuality, hdup, hdead _, hred, hcx]
  exact ⟨by decide, by decide, hnodes, hcirc, hmiss, hq, hunused⟩
